import Mathlib

/-!
Shallow embedding of `src/qr_code_scanner.py`, a poll-decode-log loop:
`capture_frame` grabs one frame from a camera endpoint (opening and
releasing a `cv2.VideoCapture` per call, raising on failure),
`scan_qr_code` maps the pyzbar decode result to a list of UTF-8 payload
strings, and `log_laps` opens the log file in append mode and loops:
capture, decode, write one timestamped line per payload (plus a console
message), sleep 1 second — with `KeyboardInterrupt` breaking the loop and
any other `Exception` caught and printed.  The loop body is modelled as an
event trace (capture calls, decode calls, file writes, console prints,
sleeps), the wall clock as epoch seconds with `time.gmtime` /
`time.strftime` implemented explicitly, and the external camera and
decoding libraries as per-iteration environment data.
-/

/-- UTC broken-down time, the fields of Python's `time.struct_time` that
`'%Y-%m-%d %H:%M:%S'` consumes. -/
structure Tm where
  year : Nat
  mon : Nat
  mday : Nat
  hour : Nat
  minute : Nat
  sec : Nat
deriving DecidableEq, Repr

/-- Gregorian leap-year rule. -/
def isLeap (y : Nat) : Bool :=
  (y % 4 == 0 && y % 100 != 0) || (y % 400 == 0)

/-- Days in year `y`. -/
def daysInYear (y : Nat) : Nat :=
  if isLeap y then 366 else 365

/-- Month lengths of year `y`, January first. -/
def monthLengths (y : Nat) : List Nat :=
  [31, if isLeap y then 29 else 28, 31, 30, 31, 30, 31, 31, 30, 31, 30, 31]

/-- Walk whole years starting at year `y`, consuming `d` days; the fuel
bounds the number of steps (any fuel at least `d / 365 + 1` is enough).
Returns the year reached and the remaining day-of-year (0-based). -/
def yearFromAux : Nat → Nat → Nat → Nat × Nat
  | 0, y, d => (y, d)
  | fuel + 1, y, d =>
    if d < daysInYear y then (y, d) else yearFromAux fuel (y + 1) (d - daysInYear y)

/-- Walk the month-length table, consuming `d` days; returns the month
(1-based) and the remaining day-of-month (0-based). -/
def monthFromAux : List Nat → Nat → Nat → Nat × Nat
  | [], m, d => (m, d)
  | len :: rest, m, d =>
    if d < len then (m, d) else monthFromAux rest (m + 1) (d - len)

/-- `time.gmtime`: UTC broken-down time of `t` seconds since the epoch. -/
def gmtime (t : Nat) : Tm :=
  let days := t / 86400
  let rem := t % 86400
  let yd := yearFromAux (days + 1) 1970 days
  let md := monthFromAux (monthLengths yd.1) 1 yd.2
  { year := yd.1, mon := md.1, mday := md.2 + 1,
    hour := rem / 3600, minute := rem % 3600 / 60, sec := rem % 60 }

/-- The decimal digit character for `d % 10`. -/
def digitChar (d : Nat) : Char :=
  Char.ofNat (48 + d % 10)

/-- Two zero-padded decimal digits of `n` (`n < 100` in every use). -/
def pad2 (n : Nat) : List Char :=
  [digitChar (n / 10), digitChar n]

/-- Four zero-padded decimal digits of `n` (`n < 10000` in every use). -/
def pad4 (n : Nat) : List Char :=
  [digitChar (n / 1000), digitChar (n / 100), digitChar (n / 10), digitChar n]

/-- The characters of `time.strftime('%Y-%m-%d %H:%M:%S', tm)`. -/
def strftimeChars (tm : Tm) : List Char :=
  pad4 tm.year ++ '-' :: pad2 tm.mon ++ '-' :: pad2 tm.mday ++
    ' ' :: pad2 tm.hour ++ ':' :: pad2 tm.minute ++ ':' :: pad2 tm.sec

/-- `current_time` as computed at line 31 of the source:
`time.strftime('%Y-%m-%d %H:%M:%S', time.gmtime())` at clock reading `t`. -/
def strftime (t : Nat) : String :=
  ⟨strftimeChars (gmtime t)⟩

/-- One recognized symbol as returned by `pyzbar.pyzbar.decode`; `data` is
its payload after `obj.data.decode('utf-8')`. -/
structure DecodedObject where
  data : String
deriving DecidableEq, Repr

/-- A captured raster frame, opaque to the orchestration code except for
the symbols the external decoding library finds in it. -/
structure Frame where
  decodedObjects : List DecodedObject
deriving DecidableEq, Repr

/-- The external `pyzbar.pyzbar.decode` collaborator: the symbols present
in the frame. -/
def pyzbar_decode (f : Frame) : List DecodedObject :=
  f.decodedObjects

/-- `scan_qr_code` (source lines 16-21): collect `obj.data.decode('utf-8')`
for every object `decode(frame)` returns. -/
def scan_qr_code (f : Frame) : List String :=
  (pyzbar_decode f).map (fun o => o.data)

/-- Resource events of one `capture_frame` call (source lines 7-13):
`cv2.VideoCapture(url)`, `cap.read()`, `cap.release()`. -/
inductive CapEv where
  | acquire
  | read
  | release
deriving DecidableEq, Repr

/-- The message of the exception `capture_frame` raises. -/
def captureErrMsg : String :=
  "Failed to capture frame from ESP32-CAM"

/-- `capture_frame` (source lines 7-13); `readResult` is what the external
`cap.read()` yields (`none` models `ret == False`).  Returns the resource
events the call performs, in order, and its outcome: the frame, or the
raised exception's message. -/
def capture_frame (readResult : Option Frame) : List CapEv × Except String Frame :=
  ([CapEv.acquire, CapEv.read, CapEv.release],
    match readResult with
    | some f => Except.ok f
    | none => Except.error captureErrMsg)

/-- Observable events of the `log_laps` loop. -/
inductive Ev where
  /-- `open(qr_log_file, mode)` at loop start. -/
  | openFile (mode : String)
  /-- A call to `capture_frame` begins. -/
  | captureCall
  /-- `scan_qr_code` returned this payload list for the captured frame. -/
  | decodeCall (payloads : List String)
  /-- `f.write(line)`. -/
  | write (line : String)
  /-- `print(msg)`. -/
  | print (msg : String)
  /-- `time.sleep(1)` completed. -/
  | sleep
  /-- The `break` of the `KeyboardInterrupt` handler. -/
  | stopped
  /-- The `with` block closes the file on exit. -/
  | closeFile
deriving DecidableEq, Repr

/-- The log line written for payload `p` at clock reading `t`
(source line 33: `f"{current_time}, {qr_code}\n"`). -/
def logLine (t : Nat) (p : String) : String :=
  strftime t ++ ", " ++ p ++ "\n"

/-- The console message printed for payload `p` at clock reading `t`
(source line 34). -/
def lapMsg (t : Nat) (p : String) : String :=
  "Lap logged: " ++ p ++ " at " ++ strftime t

/-- The write/print events of the `if qr_codes:` block (source lines
30-34) at clock reading `t` for payload list `ps`. -/
def writeEvents (t : Nat) (ps : List String) : List Ev :=
  if ps.isEmpty then []
  else ps.flatMap (fun p => [Ev.write (logLine t p), Ev.print (lapMsg t p)])

/-- What the environment does to one iteration's `try` body. -/
inductive BodyEnv where
  /-- `capture_frame` raises (its `ret` was false). -/
  | captureFail
  /-- `capture_frame` returns `f`; if `fault = some (k, msg)`, a
  non-`KeyboardInterrupt` exception with message `msg` is raised after `k`
  of this iteration's writes completed (so the sleep is not reached);
  `fault = none` means the body runs to completion. -/
  | captured (f : Frame) (fault : Option (Nat × String))
deriving DecidableEq, Repr

/-- One loop iteration's environment: the clock reading `t` used by
`time.gmtime()` and what happens to the body. -/
structure IterEnv where
  t : Nat
  body : BodyEnv
deriving DecidableEq, Repr

/-- Whether the iteration's `try` body runs to the end (reaching the
`time.sleep(1)` on source line 35) rather than being cut short by an
exception. -/
def completesBody : BodyEnv → Bool
  | BodyEnv.captured _ none => true
  | _ => false

/-- The events of one execution of the loop body (source lines 27-40) in
environment `e`.  On `captureFail` control jumps from line 28 to the
`except Exception` handler on line 39, printing the error; note the sleep
is inside the `try`, so it is skipped.  On a mid-body fault the writes
already performed stay, the handler prints, and again no sleep happens. -/
def bodyTrace (e : IterEnv) : List Ev :=
  match e.body with
  | BodyEnv.captureFail =>
    [Ev.captureCall, Ev.print ("Error: " ++ captureErrMsg)]
  | BodyEnv.captured f none =>
    Ev.captureCall :: Ev.decodeCall (scan_qr_code f) ::
      writeEvents e.t (scan_qr_code f) ++ [Ev.sleep]
  | BodyEnv.captured f (some (k, msg)) =>
    Ev.captureCall :: Ev.decodeCall (scan_qr_code f) ::
      writeEvents e.t ((scan_qr_code f).take k) ++ [Ev.print ("Error: " ++ msg)]

/-- The events of a run of the `while True:` loop through the finitely
many iterations `envs` (no `KeyboardInterrupt` among them). -/
def loopTrace (envs : List IterEnv) : List Ev :=
  envs.flatMap bodyTrace

/-- Where the final `KeyboardInterrupt` lands in the iteration it
interrupts. -/
inductive Cancel where
  /-- Before the `capture_frame` call of the next iteration. -/
  | beforeCapture
  /-- Inside the `capture_frame` call. -/
  | duringCapture
  /-- After capture of `f` and decode, after `k` of that iteration's
  writes completed. -/
  | duringBody (t : Nat) (f : Frame) (k : Nat)
deriving DecidableEq, Repr

/-- The events of the partial final iteration the `KeyboardInterrupt`
cuts short. -/
def cancelTrace : Cancel → List Ev
  | Cancel.beforeCapture => []
  | Cancel.duringCapture => [Ev.captureCall]
  | Cancel.duringBody t f k =>
    Ev.captureCall :: Ev.decodeCall (scan_qr_code f) ::
      writeEvents t ((scan_qr_code f).take k)

/-- A complete run of `log_laps` (source lines 24-40): open the file in
append mode, run the iterations of `envs`, then a `KeyboardInterrupt` at
`c` fires the `except KeyboardInterrupt` handler (print, `break`) and the
`with` block closes the file. -/
def runTrace (envs : List IterEnv) (c : Cancel) : List Ev :=
  Ev.openFile "a" :: loopTrace envs ++ cancelTrace c ++
    [Ev.print "Logging stopped.", Ev.stopped, Ev.closeFile]

/-- The log lines a trace writes, in order. -/
def traceLog (tr : List Ev) : List String :=
  tr.filterMap (fun e => match e with | Ev.write l => some l | _ => none)

/-- The number of completed sleeps in a trace. -/
def sleepCount (tr : List Ev) : Nat :=
  (tr.filter (fun e => e == Ev.sleep)).length

/-- The total number of payloads returned across the decode calls a trace
contains. -/
def decodedTotal (tr : List Ev) : Nat :=
  (tr.filterMap (fun e => match e with
    | Ev.decodeCall ps => some ps.length
    | _ => none)).sum

/-- The `(clock reading, payload)` pairs iteration `e` writes to the log. -/
def iterEntries (e : IterEnv) : List (Nat × String) :=
  match e.body with
  | BodyEnv.captureFail => []
  | BodyEnv.captured f none =>
    if (scan_qr_code f).isEmpty then []
    else (scan_qr_code f).map (fun p => (e.t, p))
  | BodyEnv.captured f (some (k, _)) =>
    if (scan_qr_code f).isEmpty then []
    else ((scan_qr_code f).take k).map (fun p => (e.t, p))

/-- All `(clock reading, payload)` pairs a run writes, in order. -/
def entriesOf (envs : List IterEnv) : List (Nat × String) :=
  envs.flatMap iterEntries

/-- The events of a run after its `break` (the `stopped` event). -/
def afterStop (tr : List Ev) : List Ev :=
  (tr.dropWhile (fun e => e != Ev.stopped)).drop 1

/-- Bytes of the log file produced by writing `lines` in order into an
initially empty file. -/
def fileContent (lines : List String) : String :=
  ⟨(lines.map String.data).flatten⟩

/-- The log file of a whole `log_laps` run appended after the `prior`
bytes the file held before the run (the file is opened with mode `'a'`). -/
def appendRun (prior : String) (envs : List IterEnv) (c : Cancel) : String :=
  prior ++ fileContent (traceLog (runTrace envs c))

/-- Split a character stream into its newline-terminated lines; a final
newline-less fragment, if any, counts as a last line. -/
def splitNlAux : List Char → List Char → List (List Char)
  | [], acc => if acc.isEmpty then [] else [acc.reverse]
  | c :: rest, acc =>
    if c = '\n' then acc.reverse :: splitNlAux rest []
    else splitNlAux rest (c :: acc)

/-- The lines of a file's bytes. -/
def splitNl (cs : List Char) : List (List Char) :=
  splitNlAux cs []

/-- Split one log line at its first comma: the part before the comma is
the timestamp, and the comma plus the following space are dropped from
what remains, giving the payload. -/
def parseLineCh (cs : List Char) : List Char × List Char :=
  (cs.takeWhile (fun c => c != ','), (cs.dropWhile (fun c => c != ',')).drop 2)

/-- Re-read a log file: split into lines, split each line at the comma
separator into a (timestamp, payload) pair. -/
def parseLog (content : String) : List (String × String) :=
  (splitNl content.data).map (fun cs => (⟨(parseLineCh cs).1⟩, ⟨(parseLineCh cs).2⟩))

/-- Whether the iteration's body is free of mid-body faults, i.e. it is
either a capture failure or a fully processed captured frame — the run
shape quantified over by the counting property. -/
def noMidFault : BodyEnv → Bool
  | BodyEnv.captured _ (some _) => false
  | _ => true

/-! Helper lemmas. -/

theorem mk_data (s : String) : String.mk s.data = s := by
  cases s
  rfl

theorem data_append (s u : String) : (s ++ u).data = s.data ++ u.data := by
  cases s
  cases u
  rfl

theorem traceLog_append (a b : List Ev) : traceLog (a ++ b) = traceLog a ++ traceLog b := by
  simp [traceLog]

theorem sleepCount_append (a b : List Ev) :
    sleepCount (a ++ b) = sleepCount a + sleepCount b := by
  simp [sleepCount]

theorem decodedTotal_append (a b : List Ev) :
    decodedTotal (a ++ b) = decodedTotal a + decodedTotal b := by
  simp [decodedTotal]

theorem loopTrace_cons (e : IterEnv) (rest : List IterEnv) :
    loopTrace (e :: rest) = bodyTrace e ++ loopTrace rest := by
  simp [loopTrace]

theorem loopTrace_append (a b : List IterEnv) :
    loopTrace (a ++ b) = loopTrace a ++ loopTrace b := by
  simp [loopTrace]

theorem entriesOf_cons (e : IterEnv) (rest : List IterEnv) :
    entriesOf (e :: rest) = iterEntries e ++ entriesOf rest := by
  simp [entriesOf]

theorem traceLog_pairs (t : Nat) (ps : List String) :
    traceLog (ps.flatMap (fun p => [Ev.write (logLine t p), Ev.print (lapMsg t p)]))
      = ps.map (logLine t) := by
  induction ps with
  | nil => rfl
  | cons p rest ih =>
    show logLine t p
        :: traceLog (rest.flatMap (fun p => [Ev.write (logLine t p), Ev.print (lapMsg t p)]))
      = logLine t p :: List.map (logLine t) rest
    rw [ih]

theorem traceLog_writeEvents (t : Nat) (ps : List String) :
    traceLog (writeEvents t ps) = ps.map (logLine t) := by
  cases ps with
  | nil => rfl
  | cons p rest =>
    show traceLog ((p :: rest).flatMap
        (fun p => [Ev.write (logLine t p), Ev.print (lapMsg t p)]))
      = (p :: rest).map (logLine t)
    exact traceLog_pairs t (p :: rest)

theorem sleepCount_pairs (t : Nat) (ps : List String) :
    sleepCount (ps.flatMap (fun p => [Ev.write (logLine t p), Ev.print (lapMsg t p)])) = 0 := by
  induction ps with
  | nil => rfl
  | cons p rest ih =>
    show sleepCount (rest.flatMap (fun p => [Ev.write (logLine t p), Ev.print (lapMsg t p)])) = 0
    exact ih

theorem sleepCount_writeEvents (t : Nat) (ps : List String) :
    sleepCount (writeEvents t ps) = 0 := by
  cases ps with
  | nil => rfl
  | cons p rest =>
    show sleepCount ((p :: rest).flatMap
        (fun p => [Ev.write (logLine t p), Ev.print (lapMsg t p)])) = 0
    exact sleepCount_pairs t (p :: rest)

theorem decodedTotal_pairs (t : Nat) (ps : List String) :
    decodedTotal (ps.flatMap (fun p => [Ev.write (logLine t p), Ev.print (lapMsg t p)])) = 0 := by
  induction ps with
  | nil => rfl
  | cons p rest ih =>
    show decodedTotal (rest.flatMap (fun p => [Ev.write (logLine t p), Ev.print (lapMsg t p)])) = 0
    exact ih

theorem decodedTotal_writeEvents (t : Nat) (ps : List String) :
    decodedTotal (writeEvents t ps) = 0 := by
  cases ps with
  | nil => rfl
  | cons p rest =>
    show decodedTotal ((p :: rest).flatMap
        (fun p => [Ev.write (logLine t p), Ev.print (lapMsg t p)])) = 0
    exact decodedTotal_pairs t (p :: rest)

theorem bodyTrace_ok_eq (t : Nat) (f : Frame) :
    bodyTrace ⟨t, BodyEnv.captured f none⟩
      = [Ev.captureCall, Ev.decodeCall (scan_qr_code f)]
        ++ (writeEvents t (scan_qr_code f) ++ [Ev.sleep]) := by
  simp [bodyTrace]

theorem bodyTrace_fault_eq (t : Nat) (f : Frame) (k : Nat) (msg : String) :
    bodyTrace ⟨t, BodyEnv.captured f (some (k, msg))⟩
      = [Ev.captureCall, Ev.decodeCall (scan_qr_code f)]
        ++ (writeEvents t ((scan_qr_code f).take k) ++ [Ev.print ("Error: " ++ msg)]) := by
  simp [bodyTrace]

theorem iterEntries_map_logLine (t : Nat) (ps : List String) :
    (ps.map (fun p => (t, p))).map (fun pr => logLine pr.1 pr.2) = ps.map (logLine t) := by
  induction ps with
  | nil => rfl
  | cons p rest ih =>
    show logLine t p :: (rest.map (fun p => (t, p))).map (fun pr => logLine pr.1 pr.2)
      = logLine t p :: rest.map (logLine t)
    rw [ih]

theorem traceLog_bodyTrace (e : IterEnv) :
    traceLog (bodyTrace e) = (iterEntries e).map (fun pr => logLine pr.1 pr.2) := by
  cases e with
  | mk t body =>
    cases body with
    | captureFail => rfl
    | captured f fault =>
      cases fault with
      | none =>
        rw [bodyTrace_ok_eq, traceLog_append, traceLog_append, traceLog_writeEvents]
        have h0 : traceLog [Ev.captureCall, Ev.decodeCall (scan_qr_code f)] = [] := rfl
        have h1 : traceLog [Ev.sleep] = [] := rfl
        rw [h0, h1, List.nil_append, List.append_nil]
        show (scan_qr_code f).map (logLine t)
          = (if (scan_qr_code f).isEmpty then []
              else (scan_qr_code f).map (fun p => (t, p))).map (fun pr => logLine pr.1 pr.2)
        cases scan_qr_code f with
        | nil => rfl
        | cons p rest =>
          show (p :: rest).map (logLine t)
            = ((p :: rest).map (fun p => (t, p))).map (fun pr => logLine pr.1 pr.2)
          rw [iterEntries_map_logLine]
      | some pr =>
        rw [bodyTrace_fault_eq t f pr.1 pr.2, traceLog_append, traceLog_append,
          traceLog_writeEvents]
        have h0 : traceLog [Ev.captureCall, Ev.decodeCall (scan_qr_code f)] = [] := rfl
        have h1 : traceLog [Ev.print ("Error: " ++ pr.2)] = [] := rfl
        rw [h0, h1, List.nil_append, List.append_nil]
        show ((scan_qr_code f).take pr.1).map (logLine t)
          = (if (scan_qr_code f).isEmpty then []
              else ((scan_qr_code f).take pr.1).map (fun p => (t, p))).map
                (fun pr => logLine pr.1 pr.2)
        cases scan_qr_code f with
        | nil =>
          show (([] : List String).take pr.1).map (logLine t) = []
          rw [List.take_nil]
          rfl
        | cons p rest =>
          show ((p :: rest).take pr.1).map (logLine t)
            = (((p :: rest).take pr.1).map (fun p => (t, p))).map (fun pr => logLine pr.1 pr.2)
          rw [iterEntries_map_logLine]

theorem traceLog_loopTrace (envs : List IterEnv) :
    traceLog (loopTrace envs) = (entriesOf envs).map (fun pr => logLine pr.1 pr.2) := by
  induction envs with
  | nil => rfl
  | cons e rest ih =>
    rw [loopTrace_cons, traceLog_append, ih, traceLog_bodyTrace, entriesOf_cons,
      List.map_append]

theorem mem_writeEvents {t : Nat} {ps : List String} {ev : Ev} (h : ev ∈ writeEvents t ps) :
    ∃ p ∈ ps, ev = Ev.write (logLine t p) ∨ ev = Ev.print (lapMsg t p) := by
  unfold writeEvents at h
  by_cases hps : ps.isEmpty
  · rw [if_pos hps] at h
    cases h
  · rw [if_neg hps] at h
    rcases List.mem_flatMap.mp h with ⟨p, hp, hev⟩
    simp only [List.mem_cons, List.not_mem_nil, or_false] at hev
    exact ⟨p, hp, hev⟩

theorem stopped_not_mem_bodyTrace (e : IterEnv) : Ev.stopped ∉ bodyTrace e := by
  intro h
  cases e with
  | mk t body =>
    cases body with
    | captureFail => simp [bodyTrace] at h
    | captured f fault =>
      cases fault with
      | none =>
        rw [bodyTrace_ok_eq] at h
        simp only [List.mem_append, List.mem_cons, List.not_mem_nil, or_false] at h
        rcases h with (h | h) | h | h
        · cases h
        · cases h
        · rcases mem_writeEvents h with ⟨p, _, hc | hc⟩ <;> cases hc
        · cases h
      | some pr =>
        rw [bodyTrace_fault_eq t f pr.1 pr.2] at h
        simp only [List.mem_append, List.mem_cons, List.not_mem_nil, or_false] at h
        rcases h with (h | h) | h | h
        · cases h
        · cases h
        · rcases mem_writeEvents h with ⟨p, _, hc | hc⟩ <;> cases hc
        · cases h

theorem stopped_not_mem_loopTrace (envs : List IterEnv) : Ev.stopped ∉ loopTrace envs := by
  intro h
  rcases List.mem_flatMap.mp h with ⟨e, _, he⟩
  exact stopped_not_mem_bodyTrace e he

theorem stopped_not_mem_cancelTrace (c : Cancel) : Ev.stopped ∉ cancelTrace c := by
  intro h
  cases c with
  | beforeCapture => cases h
  | duringCapture => simp [cancelTrace] at h
  | duringBody t f k =>
    simp only [cancelTrace, List.mem_cons] at h
    rcases h with h | h | h
    · cases h
    · cases h
    · rcases mem_writeEvents h with ⟨p, _, hc | hc⟩ <;> cases hc

theorem dropWhile_append_of_all {α : Type} (p : α → Bool) (l r : List α)
    (h : ∀ x ∈ l, p x = true) : (l ++ r).dropWhile p = r.dropWhile p := by
  induction l with
  | nil => rfl
  | cons a l ih =>
    have ha : p a = true := h a (List.mem_cons_self a l)
    rw [List.cons_append, List.dropWhile_cons, if_pos ha]
    exact ih (fun x hx => h x (List.mem_cons_of_mem a hx))

theorem afterStop_runTrace (envs : List IterEnv) (c : Cancel) :
    afterStop (runTrace envs c) = [Ev.closeFile] := by
  unfold afterStop runTrace
  have h1 : ∀ x ∈ Ev.openFile "a" :: loopTrace envs, (x != Ev.stopped) = true := by
    intro x hx
    rcases List.mem_cons.mp hx with hx | hx
    · rw [hx]
      decide
    · exact bne_iff_ne.mpr (fun he => stopped_not_mem_loopTrace envs (he ▸ hx))
  have h2 : ∀ x ∈ cancelTrace c, (x != Ev.stopped) = true := by
    intro x hx
    exact bne_iff_ne.mpr (fun he => stopped_not_mem_cancelTrace c (he ▸ hx))
  rw [List.append_assoc, dropWhile_append_of_all _ _ _ h1, dropWhile_append_of_all _ _ _ h2]
  rfl

theorem fst_eq_of_mem_iterEntries {e : IterEnv} {pr : Nat × String}
    (h : pr ∈ iterEntries e) : pr.1 = e.t := by
  cases e with
  | mk t body =>
    cases body with
    | captureFail => cases h
    | captured f fault =>
      cases fault with
      | none =>
        have h2 : pr ∈ (if (scan_qr_code f).isEmpty then ([] : List (Nat × String))
            else (scan_qr_code f).map (fun p => (t, p))) := h
        by_cases hps : (scan_qr_code f).isEmpty
        · rw [if_pos hps] at h2
          cases h2
        · rw [if_neg hps] at h2
          rcases List.mem_map.mp h2 with ⟨p, _, hp⟩
          rw [← hp]
      | some fl =>
        have h2 : pr ∈ (if (scan_qr_code f).isEmpty then ([] : List (Nat × String))
            else ((scan_qr_code f).take fl.1).map (fun p => (t, p))) := h
        by_cases hps : (scan_qr_code f).isEmpty
        · rw [if_pos hps] at h2
          cases h2
        · rw [if_neg hps] at h2
          rcases List.mem_map.mp h2 with ⟨p, _, hp⟩
          rw [← hp]

theorem mem_entriesOf {envs : List IterEnv} {pr : Nat × String}
    (h : pr ∈ entriesOf envs) : ∃ e ∈ envs, pr.1 = e.t := by
  rcases List.mem_flatMap.mp h with ⟨e, he, hpr⟩
  exact ⟨e, he, fst_eq_of_mem_iterEntries hpr⟩

theorem pairwise_le_of_const {l : List Nat} {c : Nat} (h : ∀ x ∈ l, x = c) :
    l.Pairwise (fun a b => a ≤ b) := by
  induction l with
  | nil => exact List.Pairwise.nil
  | cons a l ih =>
    refine List.Pairwise.cons ?_ (ih (fun x hx => h x (List.mem_cons_of_mem a hx)))
    intro b hb
    rw [h a (List.mem_cons_self a l), h b (List.mem_cons_of_mem a hb)]

theorem entriesOf_times_pairwise (envs : List IterEnv)
    (h : (envs.map (fun e => e.t)).Pairwise (fun a b => a ≤ b)) :
    ((entriesOf envs).map (fun pr => pr.1)).Pairwise (fun a b => a ≤ b) := by
  induction envs with
  | nil => exact List.Pairwise.nil
  | cons e rest ih =>
    rw [List.map_cons, List.pairwise_cons] at h
    rw [entriesOf_cons, List.map_append]
    refine List.pairwise_append.mpr ⟨?_, ih h.2, ?_⟩
    · refine pairwise_le_of_const (c := e.t) ?_
      intro x hx
      rcases List.mem_map.mp hx with ⟨pr, hpr, hx1⟩
      rw [← hx1]
      exact fst_eq_of_mem_iterEntries hpr
    · intro x hx y hy
      rcases List.mem_map.mp hx with ⟨pr, hpr, hx1⟩
      rcases List.mem_map.mp hy with ⟨qr, hqr, hy1⟩
      rcases mem_entriesOf hqr with ⟨e2, he2, hy2⟩
      rw [← hx1, ← hy1, fst_eq_of_mem_iterEntries hpr, hy2]
      exact h.1 e2.t (List.mem_map.mpr ⟨e2, he2, rfl⟩)

theorem digitChar_ne (d : Nat) : digitChar d ≠ ',' ∧ digitChar d ≠ '\n' := by
  unfold digitChar
  have h : d % 10 < 10 := Nat.mod_lt _ (by decide)
  revert h
  generalize d % 10 = k
  intro h
  interval_cases k <;> exact ⟨by decide, by decide⟩

theorem mem_pad2 {n : Nat} {c : Char} (h : c ∈ pad2 n) : ∃ d, c = digitChar d := by
  simp only [pad2, List.mem_cons, List.not_mem_nil, or_false] at h
  rcases h with h | h
  · exact ⟨n / 10, h⟩
  · exact ⟨n, h⟩

theorem mem_pad4 {n : Nat} {c : Char} (h : c ∈ pad4 n) : ∃ d, c = digitChar d := by
  simp only [pad4, List.mem_cons, List.not_mem_nil, or_false] at h
  rcases h with h | h | h | h
  · exact ⟨n / 1000, h⟩
  · exact ⟨n / 100, h⟩
  · exact ⟨n / 10, h⟩
  · exact ⟨n, h⟩

theorem sepGroup_ne {n : Nat} {s c : Char} (hs : s ≠ ',' ∧ s ≠ '\n')
    (h : c ∈ s :: pad2 n) : c ≠ ',' ∧ c ≠ '\n' := by
  rcases List.mem_cons.mp h with h | h
  · rw [h]
    exact hs
  · rcases mem_pad2 h with ⟨d, hd⟩
    rw [hd]
    exact digitChar_ne d

theorem strftimeChars_ne {tm : Tm} {c : Char} (hc : c ∈ strftimeChars tm) :
    c ≠ ',' ∧ c ≠ '\n' := by
  have hc2 : c ∈ ((((pad4 tm.year ++ '-' :: pad2 tm.mon) ++ '-' :: pad2 tm.mday)
      ++ ' ' :: pad2 tm.hour) ++ ':' :: pad2 tm.minute) ++ ':' :: pad2 tm.sec := hc
  rcases List.mem_append.mp hc2 with h | h
  · rcases List.mem_append.mp h with h | h
    · rcases List.mem_append.mp h with h | h
      · rcases List.mem_append.mp h with h | h
        · rcases List.mem_append.mp h with h | h
          · rcases mem_pad4 h with ⟨d, hd⟩
            rw [hd]
            exact digitChar_ne d
          · exact sepGroup_ne ⟨by decide, by decide⟩ h
        · exact sepGroup_ne ⟨by decide, by decide⟩ h
      · exact sepGroup_ne ⟨by decide, by decide⟩ h
    · exact sepGroup_ne ⟨by decide, by decide⟩ h
  · exact sepGroup_ne ⟨by decide, by decide⟩ h

theorem splitNlAux_append (l r acc : List Char) (h : '\n' ∉ l) :
    splitNlAux (l ++ '\n' :: r) acc = (acc.reverse ++ l) :: splitNlAux r [] := by
  induction l generalizing acc with
  | nil =>
    show splitNlAux ('\n' :: r) acc = (acc.reverse ++ []) :: splitNlAux r []
    rw [List.append_nil]
    show (if '\n' = '\n' then acc.reverse :: splitNlAux r []
      else splitNlAux r ('\n' :: acc)) = acc.reverse :: splitNlAux r []
    rw [if_pos rfl]
  | cons a l ih =>
    have ha : a ≠ '\n' := fun hh => h (hh ▸ List.mem_cons_self a l)
    show (if a = '\n' then acc.reverse :: splitNlAux (l ++ '\n' :: r) []
      else splitNlAux (l ++ '\n' :: r) (a :: acc)) = (acc.reverse ++ a :: l) :: splitNlAux r []
    rw [if_neg ha, ih (a :: acc) (fun hm => h (List.mem_cons_of_mem a hm))]
    rw [List.reverse_cons, List.append_assoc]
    rfl

theorem firstComma_split (l r : List Char) (h : ∀ c ∈ l, c ≠ ',') :
    (l ++ ',' :: r).takeWhile (fun c => c != ',') = l ∧
    (l ++ ',' :: r).dropWhile (fun c => c != ',') = ',' :: r := by
  induction l with
  | nil =>
    constructor
    · show (if (',' != ',') = true then ',' :: r.takeWhile (fun c => c != ',') else []) = []
      rw [if_neg (by decide)]
    · show (if (',' != ',') = true then r.dropWhile (fun c => c != ',') else ',' :: r) = ',' :: r
      rw [if_neg (by decide)]
  | cons a l ih =>
    have ha : (a != ',') = true := bne_iff_ne.mpr (h a (List.mem_cons_self a l))
    have ih2 := ih (fun c hc => h c (List.mem_cons_of_mem a hc))
    constructor
    · rw [List.cons_append, List.takeWhile_cons, if_pos ha, ih2.1]
    · rw [List.cons_append, List.dropWhile_cons, if_pos ha, ih2.2]

theorem logLine_data (t : Nat) (p : String) :
    (logLine t p).data
      = (strftimeChars (gmtime t) ++ ',' :: ' ' :: p.data) ++ '\n' :: [] := by
  show ((strftime t ++ ", " ++ p) ++ "\n").data = _
  rw [data_append, data_append, data_append]
  have h1 : (", " : String).data = [',', ' '] := rfl
  have h2 : ("\n" : String).data = ['\n'] := rfl
  have h3 : (strftime t).data = strftimeChars (gmtime t) := rfl
  rw [h1, h2, h3, List.append_assoc, List.append_assoc]
  rfl

theorem parseLog_nil : parseLog (fileContent []) = [] := rfl

theorem parseLog_roundTrip (ps : List (Nat × String))
    (h : ∀ pr ∈ ps, '\n' ∉ pr.2.data) :
    parseLog (fileContent (ps.map (fun pr => logLine pr.1 pr.2)))
      = ps.map (fun pr => (strftime pr.1, pr.2)) := by
  induction ps with
  | nil => rfl
  | cons pr rest ih =>
    have hnl : '\n' ∉ pr.2.data := h pr (List.mem_cons_self pr rest)
    have hline : '\n' ∉ strftimeChars (gmtime pr.1) ++ ',' :: ' ' :: pr.2.data := by
      intro hm
      rcases List.mem_append.mp hm with hm | hm
      · exact (strftimeChars_ne hm).2 rfl
      · rcases List.mem_cons.mp hm with hm | hm
        · cases hm
        · rcases List.mem_cons.mp hm with hm | hm
          · cases hm
          · exact hnl hm
    have hts : ∀ c ∈ strftimeChars (gmtime pr.1), c ≠ ',' :=
      fun c hc => (strftimeChars_ne hc).1
    have hdata : (fileContent ((pr :: rest).map (fun pr => logLine pr.1 pr.2))).data
        = (strftimeChars (gmtime pr.1) ++ ',' :: ' ' :: pr.2.data)
          ++ '\n' :: (fileContent (rest.map (fun pr => logLine pr.1 pr.2))).data := by
      show (logLine pr.1 pr.2).data
          ++ ((rest.map (fun pr => logLine pr.1 pr.2)).map String.data).flatten = _
      rw [logLine_data, List.append_assoc]
      rfl
    unfold parseLog
    rw [hdata]
    unfold splitNl
    rw [splitNlAux_append _ _ _ hline, List.reverse_nil, List.nil_append]
    rw [List.map_cons]
    have hsplit := firstComma_split (strftimeChars (gmtime pr.1)) (' ' :: pr.2.data) hts
    have hparse : parseLineCh (strftimeChars (gmtime pr.1) ++ ',' :: ' ' :: pr.2.data)
        = (strftimeChars (gmtime pr.1), pr.2.data) := by
      unfold parseLineCh
      rw [hsplit.1, hsplit.2]
      rfl
    rw [hparse]
    have htail := ih (fun x hx => h x (List.mem_cons_of_mem pr hx))
    unfold parseLog splitNl at htail
    rw [htail, List.map_cons]
    have hfst : (⟨strftimeChars (gmtime pr.1)⟩ : String) = strftime pr.1 := rfl
    rw [hfst, mk_data]

theorem decodedTotal_bodyTrace_ok (t : Nat) (f : Frame) :
    decodedTotal (bodyTrace ⟨t, BodyEnv.captured f none⟩) = (scan_qr_code f).length := by
  rw [bodyTrace_ok_eq, decodedTotal_append, decodedTotal_append, decodedTotal_writeEvents]
  have h1 : decodedTotal [Ev.captureCall, Ev.decodeCall (scan_qr_code f)]
      = (scan_qr_code f).length := by
    show (scan_qr_code f).length + 0 = (scan_qr_code f).length
    omega
  have h2 : decodedTotal [Ev.sleep] = 0 := rfl
  rw [h1, h2]
  omega

theorem traceLog_bodyTrace_ok_length (t : Nat) (f : Frame) :
    (traceLog (bodyTrace ⟨t, BodyEnv.captured f none⟩)).length = (scan_qr_code f).length := by
  rw [traceLog_bodyTrace, List.length_map]
  show (iterEntries ⟨t, BodyEnv.captured f none⟩).length = _
  have h2 : iterEntries ⟨t, BodyEnv.captured f none⟩
      = (if (scan_qr_code f).isEmpty then ([] : List (Nat × String))
          else (scan_qr_code f).map (fun p => (t, p))) := rfl
  rw [h2]
  cases hs : scan_qr_code f with
  | nil => rfl
  | cons p rest =>
    show ((p :: rest).map (fun p => (t, p))).length = (p :: rest).length
    rw [List.length_map]

/-! Claim theorems. -/

/-- Claim C1: for every finite run of the logging loop in which each iteration is
either a capture failure or a successfully captured frame whose payloads are all
processed, the number of log lines written equals the total number of decoded
payloads returned across all decode calls performed (decode is only called on
successfully captured frames). -/
theorem log_lines_count_eq_decoded_payloads (envs : List IterEnv)
    (h : ∀ e ∈ envs, noMidFault e.body = true) :
    (traceLog (loopTrace envs)).length = decodedTotal (loopTrace envs) := by
  induction envs with
  | nil => rfl
  | cons e rest ih =>
    rw [loopTrace_cons, traceLog_append, List.length_append, decodedTotal_append,
      ih (fun x hx => h x (List.mem_cons_of_mem e hx))]
    have hb : (traceLog (bodyTrace e)).length = decodedTotal (bodyTrace e) := by
      cases e with
      | mk t body =>
        cases body with
        | captureFail => rfl
        | captured f fault =>
          cases fault with
          | none => rw [traceLog_bodyTrace_ok_length, decodedTotal_bodyTrace_ok]
          | some pr =>
            have hx := h ⟨t, BodyEnv.captured f (some pr)⟩ (List.mem_cons_self _ _)
            simp [noMidFault] at hx
    rw [hb]

theorem log_lines_count_eq_decoded_payloads_witness :
    (∀ e ∈ ([⟨0, BodyEnv.captureFail⟩,
        ⟨1, BodyEnv.captured ⟨[⟨"LAP:1"⟩, ⟨"LAP:2"⟩]⟩ none⟩] : List IterEnv),
      noMidFault e.body = true)
  ∧ (traceLog (loopTrace [⟨0, BodyEnv.captureFail⟩,
        ⟨1, BodyEnv.captured ⟨[⟨"LAP:1"⟩, ⟨"LAP:2"⟩]⟩ none⟩])).length
      = decodedTotal (loopTrace [⟨0, BodyEnv.captureFail⟩,
        ⟨1, BodyEnv.captured ⟨[⟨"LAP:1"⟩, ⟨"LAP:2"⟩]⟩ none⟩]) :=
  ⟨by decide, log_lines_count_eq_decoded_payloads _ (by decide)⟩

/-- Claim C2, counterexample: an iteration whose capture fails runs only the
capture call and the error print — no sleep event occurs — and a two-iteration
run with one capture failure sleeps once, not twice: the `time.sleep(1)` sits
inside the `try`, so the jump to the exception handler skips it. -/
theorem capture_failure_skips_sleep :
    bodyTrace ⟨0, BodyEnv.captureFail⟩
      = [Ev.captureCall, Ev.print ("Error: " ++ captureErrMsg)]
  ∧ Ev.sleep ∉ bodyTrace ⟨0, BodyEnv.captureFail⟩
  ∧ sleepCount (loopTrace [⟨0, BodyEnv.captureFail⟩,
      ⟨1, BodyEnv.captured ⟨[]⟩ none⟩]) = 1 :=
  ⟨rfl, by decide, by decide⟩

/-- Claim C2 (amended): an iteration sleeps for the fixed 1-second interval
exactly when its `try` body runs to completion; an iteration in which capture
fails, or any other non-cancellation error is raised, skips the pause and the
next iteration begins immediately. -/
theorem sleep_iff_body_completes (e : IterEnv) :
    sleepCount (bodyTrace e) = if completesBody e.body then 1 else 0 := by
  cases e with
  | mk t body =>
    cases body with
    | captureFail => rfl
    | captured f fault =>
      cases fault with
      | none =>
        rw [bodyTrace_ok_eq, sleepCount_append, sleepCount_append, sleepCount_writeEvents]
        rfl
      | some pr =>
        rw [bodyTrace_fault_eq t f pr.1 pr.2, sleepCount_append, sleepCount_append,
          sleepCount_writeEvents]
        rfl

/-- Claim C3: a capture failure writes zero log entries in its iteration and
prints the error; a mid-body fault likewise prints its error; and the trace of
any run decomposes around any iteration, so an erroring iteration never
prevents the following iterations from contributing their full traces — in
the model only the cancellation signal ends the loop. -/
theorem nonfatal_errors_never_break_loop (t : Nat) (fr : Frame) (k : Nat) (msg : String) :
    traceLog (bodyTrace ⟨t, BodyEnv.captureFail⟩) = []
  ∧ Ev.print ("Error: " ++ captureErrMsg) ∈ bodyTrace ⟨t, BodyEnv.captureFail⟩
  ∧ Ev.print ("Error: " ++ msg) ∈ bodyTrace ⟨t, BodyEnv.captured fr (some (k, msg))⟩
  ∧ ∀ (pre post : List IterEnv) (e : IterEnv),
      loopTrace (pre ++ e :: post) = loopTrace pre ++ (bodyTrace e ++ loopTrace post) := by
  refine ⟨rfl, ?_, ?_, ?_⟩
  · exact List.mem_cons_of_mem _ (List.mem_cons_self _ _)
  · rw [bodyTrace_fault_eq]
    exact List.mem_append.mpr (Or.inr (List.mem_append.mpr
      (Or.inr (List.mem_cons_self _ _))))
  · intro pre post e
    rw [loopTrace_append, loopTrace_cons]

/-- Claim C4: the log grows append-only (the log after a shorter prefix of the
run is a prefix of the log after a longer one), each written line corresponds
to exactly one (clock, payload) entry of exactly one iteration in iteration
order, and if the wall clock readings are non-decreasing across iterations
then the timestamps of successive entries are non-decreasing. -/
theorem log_append_only_ordered_monotone (envs : List IterEnv)
    (hmono : List.Chain' (fun a b => a ≤ b) (envs.map (fun e => e.t))) :
    (∀ n m, n ≤ m → ∃ suf, traceLog (loopTrace (envs.take m))
        = traceLog (loopTrace (envs.take n)) ++ suf)
  ∧ traceLog (loopTrace envs) = (entriesOf envs).map (fun pr => logLine pr.1 pr.2)
  ∧ List.Chain' (fun a b => a ≤ b) ((entriesOf envs).map (fun pr => pr.1)) := by
  refine ⟨?_, traceLog_loopTrace envs, ?_⟩
  · intro n m hnm
    refine ⟨traceLog (loopTrace ((envs.take m).drop n)), ?_⟩
    conv_lhs => rw [← List.take_append_drop n (envs.take m)]
    rw [loopTrace_append, traceLog_append, List.take_take, Nat.min_eq_left hnm]
  · refine List.chain'_iff_pairwise.mpr ?_
    exact entriesOf_times_pairwise envs (List.chain'_iff_pairwise.mp hmono)

theorem log_append_only_ordered_monotone_witness :
    List.Chain' (fun a b => a ≤ b)
      (([⟨3, BodyEnv.captured ⟨[⟨"X"⟩]⟩ none⟩,
         ⟨7, BodyEnv.captured ⟨[⟨"Y"⟩]⟩ none⟩] : List IterEnv).map (fun e => e.t))
  ∧ 1 ≤ 2
  ∧ (∃ suf, traceLog (loopTrace (([⟨3, BodyEnv.captured ⟨[⟨"X"⟩]⟩ none⟩,
        ⟨7, BodyEnv.captured ⟨[⟨"Y"⟩]⟩ none⟩] : List IterEnv).take 2))
      = traceLog (loopTrace (([⟨3, BodyEnv.captured ⟨[⟨"X"⟩]⟩ none⟩,
        ⟨7, BodyEnv.captured ⟨[⟨"Y"⟩]⟩ none⟩] : List IterEnv).take 1)) ++ suf)
  ∧ List.Chain' (fun a b => a ≤ b)
      ((entriesOf [⟨3, BodyEnv.captured ⟨[⟨"X"⟩]⟩ none⟩,
        ⟨7, BodyEnv.captured ⟨[⟨"Y"⟩]⟩ none⟩]).map (fun pr => pr.1)) :=
  by
  have hch : List.Chain' (fun a b => a ≤ b)
      (([⟨3, BodyEnv.captured ⟨[⟨"X"⟩]⟩ none⟩,
         ⟨7, BodyEnv.captured ⟨[⟨"Y"⟩]⟩ none⟩] : List IterEnv).map (fun e => e.t)) :=
    List.Chain.cons (by decide) List.Chain.nil
  exact ⟨hch, by decide,
    (log_append_only_ordered_monotone _ hch).1 1 2 (by decide),
    (log_append_only_ordered_monotone _ hch).2.2⟩

/-- Claim C5: every log line is exactly the UTC timestamp at second precision,
a comma and a space, the payload text, and a terminating newline; the scenario
frame decoding to payload LAP:1 at epoch second 1704067200 (2024-01-01
00:00:00 UTC) writes exactly that line; the file is opened with mode append,
and the run's file content is the prior content with the run's lines added
after it. -/
theorem log_line_format (t : Nat) (p : String) :
    logLine t p = strftime t ++ ", " ++ p ++ "\n"
  ∧ traceLog (bodyTrace ⟨1704067200, BodyEnv.captured ⟨[⟨"LAP:1"⟩]⟩ none⟩)
      = ["2024-01-01 00:00:00, LAP:1\n"]
  ∧ (∀ envs c, Ev.openFile "a" ∈ runTrace envs c)
  ∧ (∀ prior envs c, ∃ added, appendRun prior envs c = prior ++ added) := by
  refine ⟨rfl, by decide, ?_, ?_⟩
  · intro envs c
    exact List.mem_append.mpr (Or.inl (List.mem_append.mpr
      (Or.inl (List.mem_cons_self _ _))))
  · intro prior envs c
    exact ⟨fileContent (traceLog (runTrace envs c)), rfl⟩

/-- Claim C6, counterexample: with a payload containing a newline the re-read
log does not reproduce the written (timestamp, payload) pair — the payload
splits into two parsed entries — so the round-trip fails for arbitrary
payload texts. -/
theorem roundtrip_fails_on_newline_payload :
    parseLog (fileContent (traceLog (bodyTrace ⟨0, BodyEnv.captured ⟨[⟨"A\nB"⟩]⟩ none⟩)))
      = [("1970-01-01 00:00:00", "A"), ("B", "")]
  ∧ parseLog (fileContent (traceLog (bodyTrace ⟨0, BodyEnv.captured ⟨[⟨"A\nB"⟩]⟩ none⟩)))
      ≠ [("1970-01-01 00:00:00", "A\nB")] :=
  ⟨by decide, by decide⟩

/-- Claim C6 (amended): for every run in which no written payload contains a
newline character, re-reading the produced log file (splitting into lines and
splitting each line at the first comma, dropping the comma-space separator)
yields exactly the sequence of (formatted timestamp, payload) pairs written,
in order, with no loss or alteration. -/
theorem roundtrip_exact_for_newline_free_payloads (envs : List IterEnv)
    (h : ∀ pr ∈ entriesOf envs, '\n' ∉ pr.2.data) :
    parseLog (fileContent (traceLog (loopTrace envs)))
      = (entriesOf envs).map (fun pr => (strftime pr.1, pr.2)) := by
  rw [traceLog_loopTrace]
  exact parseLog_roundTrip (entriesOf envs) h

theorem roundtrip_exact_for_newline_free_payloads_witness :
    (∀ pr ∈ entriesOf [⟨0, BodyEnv.captured ⟨[⟨"LAP:1"⟩]⟩ none⟩], '\n' ∉ pr.2.data)
  ∧ parseLog (fileContent (traceLog (loopTrace [⟨0, BodyEnv.captured ⟨[⟨"LAP:1"⟩]⟩ none⟩])))
      = (entriesOf [⟨0, BodyEnv.captured ⟨[⟨"LAP:1"⟩]⟩ none⟩]).map
          (fun pr => (strftime pr.1, pr.2)) :=
  ⟨by decide, roundtrip_exact_for_newline_free_payloads _ (by decide)⟩

/-- Claim C7: a run interrupted by cancellation keeps exactly the log lines
written by the completed iterations followed by those of the partially
completed final iteration — no rollback — and after the break event the only
remaining activity is closing the file: no capture, decode, or write ever
follows the stop. -/
theorem cancellation_terminal_no_rollback (envs : List IterEnv) (c : Cancel) :
    traceLog (runTrace envs c) = traceLog (loopTrace envs) ++ traceLog (cancelTrace c)
  ∧ afterStop (runTrace envs c) = [Ev.closeFile] := by
  constructor
  · unfold runTrace
    rw [traceLog_append, traceLog_append]
    have h1 : traceLog (Ev.openFile "a" :: loopTrace envs) = traceLog (loopTrace envs) := rfl
    have h2 : traceLog [Ev.print "Logging stopped.", Ev.stopped, Ev.closeFile] = [] := rfl
    rw [h1, h2, List.append_nil]
  · exact afterStop_runTrace envs c

/-- Claim C8: an iteration whose frame decodes to no payloads writes no log
entry, and the three-iteration scenario decoding to A, nothing, and B then C
writes exactly three lines, A then B then C, with A stamped with the first
iteration's time and B and C both stamped with the third iteration's time. -/
theorem empty_decode_writes_nothing (t : Nat) (f : Frame) (h : scan_qr_code f = []) :
    traceLog (bodyTrace ⟨t, BodyEnv.captured f none⟩) = []
  ∧ traceLog (loopTrace
        [⟨0, BodyEnv.captured ⟨[⟨"A"⟩]⟩ none⟩,
         ⟨1, BodyEnv.captured ⟨[]⟩ none⟩,
         ⟨2, BodyEnv.captured ⟨[⟨"B"⟩, ⟨"C"⟩]⟩ none⟩])
      = ["1970-01-01 00:00:00, A\n", "1970-01-01 00:00:02, B\n",
         "1970-01-01 00:00:02, C\n"] := by
  constructor
  · rw [traceLog_bodyTrace]
    have h2 : iterEntries ⟨t, BodyEnv.captured f none⟩
        = (if (scan_qr_code f).isEmpty then ([] : List (Nat × String))
            else (scan_qr_code f).map (fun p => (t, p))) := rfl
    rw [h2, h]
    rfl
  · decide

theorem empty_decode_writes_nothing_witness :
    scan_qr_code ⟨[]⟩ = [] ∧ traceLog (bodyTrace ⟨5, BodyEnv.captured ⟨[]⟩ none⟩) = [] :=
  ⟨rfl, (empty_decode_writes_nothing 5 ⟨[]⟩ rfl).1⟩

/-- Claim C9: every capture call performs exactly the acquire, read, release
sequence — the resource is released before the call returns or raises, on the
success path and the failure path alike — and it raises exactly when the read
yields no frame, returning the read frame otherwise. -/
theorem capture_opens_and_releases_each_call (r : Option Frame) (f : Frame) :
    (capture_frame r).1 = [CapEv.acquire, CapEv.read, CapEv.release]
  ∧ ((capture_frame r).2 = Except.error captureErrMsg ↔ r = none)
  ∧ ((capture_frame r).2 = Except.ok f ↔ r = some f) := by
  cases r with
  | none => exact ⟨rfl, by simp [capture_frame], by simp [capture_frame]⟩
  | some g => exact ⟨rfl, by simp [capture_frame], by simp [capture_frame]⟩

/-- Claim C10: the emptiness guard tests whether the payload list is empty,
not whether a payload text is empty: when some payload is the empty string a
write still happens for it, its line being the timestamp, the comma-space
separator, and the newline; concretely a frame decoding to the single empty
payload at epoch 0 writes the line 1970-01-01 00:00:00 followed by comma,
space and newline. -/
theorem empty_payload_still_logged (t : Nat) (f : Frame) (h : "" ∈ scan_qr_code f) :
    Ev.write (logLine t "") ∈ bodyTrace ⟨t, BodyEnv.captured f none⟩
  ∧ logLine t "" = strftime t ++ ", " ++ "\n"
  ∧ (writeEvents t (scan_qr_code f) = [] ↔ scan_qr_code f = [])
  ∧ traceLog (bodyTrace ⟨0, BodyEnv.captured ⟨[⟨""⟩]⟩ none⟩)
      = ["1970-01-01 00:00:00, \n"] := by
  refine ⟨?_, ?_, ?_, by decide⟩
  · rw [bodyTrace_ok_eq]
    refine List.mem_append.mpr (Or.inr (List.mem_append.mpr (Or.inl ?_)))
    unfold writeEvents
    have hne : ¬((scan_qr_code f).isEmpty = true) := by
      cases hs : scan_qr_code f with
      | nil =>
        rw [hs] at h
        cases h
      | cons a l => simp
    rw [if_neg hne]
    exact List.mem_flatMap.mpr ⟨"", h, List.mem_cons_self _ _⟩
  · show strftime t ++ ", " ++ "" ++ "\n" = strftime t ++ ", " ++ "\n"
    rw [String.append_empty]
  · constructor
    · intro hw
      cases hs : scan_qr_code f with
      | nil => rfl
      | cons a l =>
        rw [hs] at hw
        have hcons : writeEvents t (a :: l)
            = Ev.write (logLine t a) :: Ev.print (lapMsg t a)
              :: l.flatMap (fun p => [Ev.write (logLine t p), Ev.print (lapMsg t p)]) := rfl
        rw [hcons] at hw
        cases hw
    · intro hs
      rw [hs]
      rfl

theorem empty_payload_still_logged_witness :
    "" ∈ scan_qr_code ⟨[⟨""⟩]⟩
  ∧ Ev.write (logLine 0 "") ∈ bodyTrace ⟨0, BodyEnv.captured ⟨[⟨""⟩]⟩ none⟩ :=
  ⟨by decide, (empty_payload_still_logged 0 ⟨[⟨""⟩]⟩ (by decide)).1⟩
